import Mathlib

/-!
Shallow embedding of the `rqp` query parser (rest-query-parser, `src/main.go`)
and proofs about its specification claims.

Go structures are embedded as Lean structures; Go `map` iteration is embedded
as association-list iteration in list order; machine `int` is embedded as `Int`
(Go `strconv.Atoi` range checks are kept explicit); functions that mutate the
receiver return the updated state paired with an optional error, mirroring the
Go pattern of mutating a pointer receiver and returning `error`.

Helpers of this repository that are called from `src/main.go` but whose source
file is not under `src/` (`Filter`, `parseFilterKey`, `parseFilterValue`, `in`,
`cleanSliceString`, the error values) are modelled from the spec; each such
definition carries a doc comment starting with `Modelled from the spec:`.
-/

set_option maxHeartbeats 1000000

namespace Rqp

/-- Coerced query values. Embeds Go's `interface{}` as used by the parser:
strings, ints, bools, flat sequences (for `IN`), and the nil interface
(a `Filter`'s value before `parseFilterValue` sets it). -/
inductive Value where
  | vNil : Value
  | vStr : String → Value
  | vInt : Int → Value
  | vBool : Bool → Value
  | vList : List Value → Value

/-- Errors surfaced by parsing. `badFormat` and `filterNotAllowed` embed the
repository's error values `ErrBadFormat` / `ErrFilterNotAllowed` (their
definitions are not under `src/`); `conversion s` embeds the error returned by
`strconv.Atoi` on input `s`; `custom s` embeds an arbitrary caller-supplied
validation error with message `s`. -/
inductive Err where
  | badFormat : Err
  | filterNotAllowed : Err
  | conversion : String → Err
  | custom : String → Err
deriving DecidableEq, Repr

/-- Message text of an error, embedding Go `err.Error()` as used by
`fmt.Sprintf("%s: %v", key, err)`. The texts of the named errors are not under
`src/`; only the `custom` case is exercised by the claims. -/
def errString : Err → String
  | .badFormat => "bad format"
  | .filterNotAllowed => "filter not allowed"
  | .conversion s => "strconv.Atoi: parsing " ++ s ++ ": invalid syntax"
  | .custom s => s

/-- Embeds the Go `ValidationFunc`: a caller-supplied check over a coerced
value, returning an error to reject it or nil (`none`) to accept. -/
def VFun : Type := Value → Option Err

/-- Embeds the Go `Sort` struct of `src/main.go` (the name `Sort` itself is a
Lean keyword, and the field `by` likewise, hence the renamings). -/
structure SortEntry where
  sortBy : String
  desc : Bool
deriving DecidableEq, Repr

/-- Modelled from the spec: the `Filter` struct is not under `src/`; per the
spec, one parsed filter holds a field name, a comparison method and a coerced
value. The method is a string, as the Go code compares it against the string
constants `MethodEQ` … `MethodIN`. -/
structure Filter where
  name : String
  method : String
  value : Value

/-- Embeds the Go `QueryParser` struct. `query` and `validations` are Go maps,
embedded as association lists iterated in list order (Go map iteration order is
unspecified). -/
structure QueryParser where
  query : List (String × List String)
  validations : List (String × Option VFun)
  fields : List String
  offset : Int
  limit : Int
  sort : List SortEntry
  filters : List Filter
  delimiter : String
  ignoreUnknown : Bool
  ErrorMessage : String

/-- Embeds `defaults()` of `src/main.go`: only the delimiter is set, every
other field is the Go zero value. -/
def defaults : QueryParser :=
  { query := [], validations := [], fields := [], offset := 0, limit := 0,
    sort := [], filters := [], delimiter := ",", ignoreUnknown := false,
    ErrorMessage := "" }

/-- Embeds the Go map `TranslateMethods`; a missing key yields the map's zero
value `""`. -/
def translateMethod : String → String
  | "EQ" => "="
  | "NE" => "!="
  | "GT" => ">"
  | "LT" => "<"
  | "GTE" => ">="
  | "LTE" => "<="
  | "LIKE" => "LIKE"
  | "NOT" => "NOT"
  | "IN" => "IN"
  | _ => ""

/-- Embeds Go `strings.Join` over a separator. -/
def strJoin (sep : String) : List String → String
  | [] => ""
  | [s] => s
  | s :: t :: rest => s ++ sep ++ strJoin sep (t :: rest)

/-- Splitting loop over characters: splits at each leftmost non-overlapping
occurrence of the nonempty separator `sep`. `fuel` bounds the recursion and is
in practice the length of the remaining input plus one. -/
def splitChars (sep : List Char) : Nat → List Char → List Char → List (List Char)
  | 0, cur, _ => [cur.reverse]
  | _ + 1, cur, [] => [cur.reverse]
  | fuel + 1, cur, c :: rest =>
    if sep.isPrefixOf (c :: rest) then
      cur.reverse :: splitChars sep fuel [] ((c :: rest).drop sep.length)
    else
      splitChars sep fuel (c :: cur) rest

/-- Embeds Go `strings.Split` for the nonempty separators the code uses (the
delimiter and `":"`). -/
def strSplit (s sep : String) : List String :=
  (splitChars sep.data (s.data.length + 1) [] s.data).map String.mk

/-- Embeds Go `strings.Contains` for the nonempty substrings used by the code
(the delimiter and `":"`). -/
def strContains (s sub : String) : Bool := 2 ≤ (strSplit s sub).length

/-- ASCII upper-casing of one character (the reserved keys the code compares
against are ASCII). -/
def charUpper (c : Char) : Char :=
  if 'a' ≤ c && c ≤ 'z' then Char.ofNat (c.toNat - 32) else c

/-- Embeds Go `strings.ToUpper` on ASCII strings. -/
def strToUpper (s : String) : String := ⟨s.data.map charUpper⟩

/-- ASCII whitespace, as trimmed by Go `strings.TrimSpace`. -/
def isSpaceGo (c : Char) : Bool :=
  c = ' ' || c = '\t' || c = '\n' || c = '\r' || c = '\x0b' || c = '\x0c'

/-- Embeds Go `strings.TrimSpace` on ASCII strings. -/
def strTrimSpace (s : String) : String :=
  ⟨((s.data.dropWhile isSpaceGo).reverse.dropWhile isSpaceGo).reverse⟩

/-- The `list := value; if strings.Contains(value[0], delim) { list =
strings.Split(value[0], delim) }` idiom of `src/main.go`, applied to a single
raw value. -/
def splitIfContains (delim v : String) : List String :=
  if strContains v delim then strSplit v delim else [v]

/-- Modelled from the spec: `cleanSliceString` is not under `src/`; per the
spec's reserved-key handlers, tokens are trimmed, and empty tokens are dropped
(`parseSort` indexes `v[0]`, so the cleaned tokens must be nonempty). -/
def cleanSliceString (l : List String) : List String :=
  (l.map (fun s => strTrimSpace s)).filter (fun s => s ≠ "")

/-- Number of `?` characters in a string. -/
def countQ (s : String) : Nat := s.data.countP (fun c => c == '?')

/-- Replaces the first `?` of a character list with `r`. -/
def rfqAux (r : List Char) : List Char → List Char
  | [] => []
  | c :: cs => if c = '?' then r ++ cs else c :: rfqAux r cs

/-- Replaces the first `?` of `s` with `r` (bindvar expansion). -/
def replaceFirstQ (s r : String) : String := ⟨rfqAux r.data s.data⟩

/-- Modelled from the spec: the helper `in` is not under `src/`. Per the spec,
an `IN` filter over a value sequence renders one placeholder per element and
binds the flattened element sequence; the single `?` bindvar of the input
expression is expanded in place. A non-sequence value leaves the expression
unchanged and binds the value itself. -/
def inExpand (exp : String) : Value → String × List Value
  | .vList l => (replaceFirstQ exp (strJoin ", " (l.map fun _ => "?")), l)
  | v => (exp, [v])

/-- Character-level form of `strings.Replace(value, "*", "%", -1)`. -/
def starToPercent (c : Char) : Char := if c = '*' then '%' else c

/-- Embeds Go `strings.Replace(value, "*", "%", -1)` (a one-character pattern,
so replacement is the character-wise map). -/
def replaceStars (s : String) : String := ⟨s.data.map starToPercent⟩

/-- The `LIKE` branch of `Args()`: Go type-asserts `filter.value.(string)` and
rewrites `*` to `%`. The non-string case would panic in Go and is unreachable
for parsed filters; it is left as the identity here. -/
def likeArg : Value → Value
  | .vStr s => .vStr (replaceStars s)
  | v => v

/-- The methods of the first `case` of the `switch` in `Where()`. -/
def scalarOps : List String := ["EQ", "NE", "GT", "LT", "GTE", "LTE", "LIKE"]

/-- One term of the WHERE clause, or `none` when the `switch` in `Where()`
falls to `default: continue` (the filter is skipped). -/
def whereTerm (f : Filter) : Option String :=
  if f.method ∈ scalarOps then
    some (f.name ++ " " ++ translateMethod f.method ++ " ?")
  else if f.method = "IN" then
    some ((inExpand (f.name ++ " " ++ translateMethod f.method ++ " (?)") f.value).1)
  else none

/-- Embeds `QueryParser.Where` of `src/main.go`. -/
def QueryParser.Where (p : QueryParser) : String :=
  if p.filters.isEmpty then "" else strJoin " AND " (p.filters.filterMap whereTerm)

/-- The arguments contributed by one filter in `Args()`; the `default:
continue` branch contributes nothing. -/
def argsOfFilter (f : Filter) : List Value :=
  if f.method ∈ ["EQ", "NE", "GT", "LT", "GTE", "LTE"] then [f.value]
  else if f.method = "LIKE" then [likeArg f.value]
  else if f.method = "IN" then (inExpand "?" f.value).2
  else []

/-- Embeds `QueryParser.Args` of `src/main.go`. -/
def QueryParser.Args (p : QueryParser) : List Value :=
  if p.filters.isEmpty then [] else (p.filters.map argsOfFilter).flatten

/-- Embeds `QueryParser.Fields` of `src/main.go`. -/
def QueryParser.Fields (p : QueryParser) : String :=
  if p.fields.isEmpty then "*" else strJoin ", " p.fields

/-- One term of the ORDER BY clause. -/
def sortItem (s : SortEntry) : String :=
  if s.desc then s.sortBy ++ " DESC" else s.sortBy

/-- Embeds the Go method `QueryParser.Sort` of `src/main.go` (`Sort` is a Lean
keyword, hence the renaming). -/
def QueryParser.SortClause (p : QueryParser) : String :=
  if p.sort.isEmpty then "" else "ORDER BY " ++ strJoin ", " (p.sort.map sortItem)

/-- Decimal value of a digit list. -/
def digitsVal (cs : List Char) : Nat :=
  cs.foldl (fun a c => a * 10 + (c.toNat - 48)) 0

/-- A nonempty all-digit character list. -/
def decDigits (cs : List Char) : Bool := !cs.isEmpty && cs.all Char.isDigit

/-- Embeds Go `strconv.Atoi` on a 64-bit platform: an optional single leading
sign, then a nonempty digit string whose value fits in `int64`; anything else
is an error (`none`). -/
def atoi (s : String) : Option Int :=
  match s.data with
  | [] => none
  | c :: cs =>
    if c = '+' then
      if decDigits cs && digitsVal cs < 2 ^ 63 then some (Int.ofNat (digitsVal cs)) else none
    else if c = '-' then
      if decDigits cs && digitsVal cs ≤ 2 ^ 63 then some (-(Int.ofNat (digitsVal cs))) else none
    else
      if decDigits (c :: cs) && digitsVal (c :: cs) < 2 ^ 63 then
        some (Int.ofNat (digitsVal (c :: cs)))
      else none

/-- Embeds the Go map read `p.validations[key]`: a missing key yields the zero
value (nil function), as does an entry whose stored function is nil. -/
def lookupVF (vs : List (String × Option VFun)) (key : String) : Option VFun :=
  match vs.lookup key with
  | some v => v
  | none => none

/-- Whether a validation-table key `k` matches the field name `name`, per the
allow-list loop in `Parse()`: a key containing `:` matches when its first
segment equals `name`, a bare key matches when it equals `name`. -/
def matchesEntry (k name : String) : Bool :=
  match strSplit k ":" with
  | s0 :: _ :: _ => s0 == name
  | _ => k == name

/-- Embeds the allow-list loop of `Parse()` (`src/main.go` lines 232-245):
scans the validation table for the first entry matching the filter's field
name, yielding (allowed, validation function, type token). The starting
function is `p.validations[filter.name]`, the starting type is `"string"`. -/
def resolveAllowed (name : String) (vf : Option VFun) :
    List (String × Option VFun) → Bool × Option VFun × String
  | [] => (false, vf, "string")
  | (k, v) :: rest =>
    match strSplit k ":" with
    | s0 :: s1 :: _ =>
      if s0 = name then (true, v, s1) else resolveAllowed name vf rest
    | _ =>
      if k = name then (true, vf, "string") else resolveAllowed name vf rest

/-- The nine recognized method tokens. -/
def methodTokens : List String :=
  ["EQ", "NE", "GT", "LT", "GTE", "LTE", "LIKE", "NOT", "IN"]

/-- Modelled from the spec: `parseFilterKey` is not under `src/`. Per the
spec's filter-key grammar `NAME[':'METHOD[':'INDEX]]`: a missing METHOD
defaults to EQ, METHOD must be one of the nine tokens (case-sensitively),
INDEX is an arbitrary disambiguating token, and an empty name, an unrecognized
method or more than three segments fail with `BadFormat`. -/
def parseFilterKey (key : String) : Except Err Filter :=
  match strSplit key ":" with
  | [name] =>
    if name = "" then .error .badFormat else .ok ⟨name, "EQ", .vNil⟩
  | [name, m] =>
    if name = "" then .error .badFormat
    else if m ∈ methodTokens then .ok ⟨name, m, .vNil⟩ else .error .badFormat
  | [name, m, _] =>
    if name = "" then .error .badFormat
    else if m ∈ methodTokens then .ok ⟨name, m, .vNil⟩ else .error .badFormat
  | _ => .error .badFormat

/-- Embeds Go `strconv.ParseBool`. -/
def parseBoolGo (s : String) : Option Bool :=
  if s ∈ ["1", "t", "T", "TRUE", "true", "True"] then some true
  else if s ∈ ["0", "f", "F", "FALSE", "false", "False"] then some false
  else none

/-- Modelled from the spec: token coercion of `parseFilterValue` (not under
`src/`). The resolved type token selects the coercion: `int` via
`strconv.Atoi`, `bool` via `strconv.ParseBool`, `string` (the default of the
allow-list resolver) verbatim; a numeric or boolean parse failure is a
conversion error naming the offending token. `float` is beyond this embedding
and no claim exercises it. -/
def coerceToken (ty : String) (tok : String) : Except Err Value :=
  if ty = "int" then
    match atoi tok with
    | some n => .ok (.vInt n)
    | none => .error (.conversion tok)
  else if ty = "bool" then
    match parseBoolGo tok with
    | some b => .ok (.vBool b)
    | none => .error (.conversion tok)
  else .ok (.vStr tok)

/-- Coerces every token, stopping at the first failure. -/
def coerceTokens (ty : String) : List String → Except Err (List Value)
  | [] => .ok []
  | t :: ts =>
    match coerceToken ty t with
    | .error e => .error e
    | .ok v =>
      match coerceTokens ty ts with
      | .error e => .error e
      | .ok vs => .ok (v :: vs)

/-- Runs a validation function over each value, stopping at the first error. -/
def validateEach (f : VFun) : List Value → Option Err
  | [] => none
  | v :: rest =>
    match f v with
    | some e => some e
    | none => validateEach f rest

/-- Modelled from the spec: `parseFilterValue` is not under `src/`. Per the
spec's value coercer: a single raw value containing the delimiter is split on
it, otherwise the raw multi-value list is used as-is; each token is coerced to
the resolved type; the validation function (if any) runs on each coerced
value; the stored `LIKE` value keeps its original `*` form (no rewriting
here); `IN` stores the whole coerced sequence, every other method requires a
single token; finally one `Filter` is appended to the filter list. -/
def parseFilterValue (p : QueryParser) (filter : Filter) (ty : String)
    (value : List String) (validate : Option VFun) : QueryParser × Option Err :=
  let list :=
    match value with
    | [v] => splitIfContains p.delimiter v
    | _ => value
  match coerceTokens ty list with
  | .error e => (p, some e)
  | .ok vals =>
    match (match validate with | some f => validateEach f vals | none => none) with
    | some e => (p, some e)
    | none =>
      if filter.method = "IN" then
        ({ p with filters := p.filters ++ [{ filter with value := .vList vals }] }, none)
      else
        match vals with
        | [v] => ({ p with filters := p.filters ++ [{ filter with value := v }] }, none)
        | _ => (p, some .badFormat)

/-- Embeds `QueryParser.parseFields` of `src/main.go`. -/
def parseFields (p : QueryParser) (value : List String) (validate : Option VFun) :
    QueryParser × Option Err :=
  match value with
  | [v] =>
    let list := cleanSliceString (splitIfContains p.delimiter v)
    match validate with
    | some f =>
      match validateEach f (list.map Value.vStr) with
      | some e => (p, some e)
      | none => ({ p with fields := list }, none)
    | none => ({ p with fields := list }, none)
  | _ => (p, some .badFormat)

/-- Embeds `QueryParser.parseOffset` of `src/main.go`: exactly one raw value,
an empty value is a no-op, otherwise `strconv.Atoi` then the optional
validation function on the already-assigned offset. -/
def parseOffset (p : QueryParser) (value : List String) (validate : Option VFun) :
    QueryParser × Option Err :=
  match value with
  | [v] =>
    if v = "" then (p, none)
    else
      match atoi v with
      | none => (p, some (.conversion v))
      | some n =>
        match validate with
        | some f =>
          match f (.vInt n) with
          | some e => ({ p with offset := n }, some e)
          | none => ({ p with offset := n }, none)
        | none => ({ p with offset := n }, none)
  | _ => (p, some .badFormat)

/-- Embeds `QueryParser.parseLimit` of `src/main.go`. -/
def parseLimit (p : QueryParser) (value : List String) (validate : Option VFun) :
    QueryParser × Option Err :=
  match value with
  | [v] =>
    if v = "" then (p, none)
    else
      match atoi v with
      | none => (p, some (.conversion v))
      | some n =>
        match validate with
        | some f =>
          match f (.vInt n) with
          | some e => ({ p with limit := n }, some e)
          | none => ({ p with limit := n }, none)
        | none => ({ p with limit := n }, none)
  | _ => (p, some .badFormat)

/-- The offset (or limit) stored after `parseOffset`/`parseLimit` succeed on a
single raw value `v`: the parsed integer, or the previous value when `v` is
empty (the empty-value no-op branch). -/
def offsetResult (old : Int) (v : String) : Int :=
  match atoi v with
  | some n => n
  | none => old

/-- One token of the SORT value: Go switches on `v[0]` (`-` descending, `+`
ascending, both stripped; anything else ascending with the token as the field
name). The empty token, on which Go's `v[0]` would panic, cannot occur after
`cleanSliceString`. -/
def sortTokenOf (v : String) : SortEntry :=
  match v.data with
  | c :: rest =>
    if c = '-' then ⟨⟨rest⟩, true⟩
    else if c = '+' then ⟨⟨rest⟩, false⟩
    else ⟨v, false⟩
  | _ => ⟨v, false⟩

/-- The per-token loop of `parseSort`: validate the field name, then append
the sort directive; the first validation error aborts, keeping the directives
appended so far. -/
def sortLoop (validate : Option VFun) : List String → QueryParser → QueryParser × Option Err
  | [], p => (p, none)
  | v :: rest, p =>
    let st := sortTokenOf v
    match validate with
    | some f =>
      match f (.vStr st.sortBy) with
      | some e => (p, some e)
      | none => sortLoop validate rest { p with sort := p.sort ++ [st] }
    | none => sortLoop validate rest { p with sort := p.sort ++ [st] }

/-- Embeds `QueryParser.parseSort` of `src/main.go`. -/
def parseSort (p : QueryParser) (value : List String) (validate : Option VFun) :
    QueryParser × Option Err :=
  match value with
  | [v] => sortLoop validate (cleanSliceString (splitIfContains p.delimiter v)) p
  | _ => (p, some .badFormat)

/-- Whether a query key is one of the reserved keys, matched
case-insensitively as in `Parse()`. -/
def isReservedKey (k : String) : Bool :=
  strToUpper k ∈ ["FIELDS", "OFFSET", "LIMIT", "SORT"]

/-- Embeds the key loop of `QueryParser.Parse` of `src/main.go`, iterating the
query association list in list order (Go map iteration order is unspecified).
Reserved keys dispatch to their handlers with `p.validations[key]` looked up
under the exact key; other keys go through the filter-key grammar, the
allow-list resolver and `parseFilterValue`; a `parseFilterValue` error
additionally sets `ErrorMessage` to `"<key>: <error>"`. -/
def parseLoop : List (String × List String) → QueryParser → QueryParser × Option Err
  | [], p => (p, none)
  | (key, value) :: rest, p =>
    if strToUpper key = "FIELDS" then
      match parseFields p value (lookupVF p.validations key) with
      | (p1, some e) => (p1, some e)
      | (p1, none) => parseLoop rest p1
    else if strToUpper key = "OFFSET" then
      match parseOffset p value (lookupVF p.validations key) with
      | (p1, some e) => (p1, some e)
      | (p1, none) => parseLoop rest p1
    else if strToUpper key = "LIMIT" then
      match parseLimit p value (lookupVF p.validations key) with
      | (p1, some e) => (p1, some e)
      | (p1, none) => parseLoop rest p1
    else if strToUpper key = "SORT" then
      match parseSort p value (lookupVF p.validations key) with
      | (p1, some e) => (p1, some e)
      | (p1, none) => parseLoop rest p1
    else
      match parseFilterKey key with
      | .error e => (p, some e)
      | .ok filter =>
        let r := resolveAllowed filter.name (lookupVF p.validations filter.name) p.validations
        if r.1 then
          match parseFilterValue p filter r.2.2 value r.2.1 with
          | (p1, some e) => ({ p1 with ErrorMessage := key ++ ": " ++ errString e }, some e)
          | (p1, none) => parseLoop rest p1
        else
          if p.ignoreUnknown then parseLoop rest p
          else (p, some Err.filterNotAllowed)

/-- Embeds `QueryParser.Parse` of `src/main.go`. -/
def QueryParser.Parse (p : QueryParser) : QueryParser × Option Err :=
  parseLoop p.query p

/-- A fresh parser over a query holding the four reserved keys with the given
raw values (used to study repeated `Parse()` runs). -/
def q4 (fv ov lv sv : String) : QueryParser :=
  { defaults with query := [("FIELDS", [fv]), ("OFFSET", [ov]), ("LIMIT", [lv]), ("SORT", [sv])] }

/-- The element sequence of a value (a non-sequence value is its own singleton
sequence). -/
def valueElems : Value → List Value
  | .vList l => l
  | v => [v]

/-- Spec-side rendering of one WHERE term, following the words of the spec:
`field OPERATOR ?` with the operator drawn from the method-to-operator table,
and an `IN` filter rendered as `field IN (?, ?, …)` with one placeholder per
element of its value sequence. -/
def specTermOf (f : Filter) : String :=
  if f.method = "IN" then
    f.name ++ " IN (" ++ strJoin ", " ((valueElems f.value).map fun _ => "?") ++ ")"
  else
    f.name ++ " " ++ translateMethod f.method ++ " ?"

/-- Whether a value is a sequence (`IN` filters produced by parsing always
carry one). -/
def valueIsList : Value → Bool
  | .vList _ => true
  | _ => false

/-! ## Helper lemmas -/

theorem strEq_of_data {a b : String} (h : a.data = b.data) : a = b := by
  cases a; cases b; cases h; rfl

theorem strData_append (a b : String) : (a ++ b).data = a.data ++ b.data := by
  cases a; cases b; rfl

theorem strAppend_assoc (a b c : String) : a ++ b ++ c = a ++ (b ++ c) := by
  apply strEq_of_data
  simp [strData_append, List.append_assoc]

theorem countQ_append (a b : String) : countQ (a ++ b) = countQ a + countQ b := by
  simp [countQ, strData_append, List.countP_append]

theorem countQ_strJoin (sep : String) (h : countQ sep = 0) :
    ∀ l : List String, countQ (strJoin sep l) = (l.map countQ).sum
  | [] => by simp [strJoin, countQ]
  | [s] => by simp [strJoin]
  | s :: t :: rest => by
    rw [strJoin, countQ_append, countQ_append, countQ_strJoin sep h (t :: rest)]
    simp [h]

theorem countQ_qmarks {α : Type} : ∀ l : List α,
    countQ (strJoin ", " (l.map fun _ => "?")) = l.length
  | [] => rfl
  | [a] => rfl
  | a :: b :: t => by
    have ih := countQ_qmarks (b :: t)
    have h1 : countQ "?" = 1 := rfl
    have h2 : countQ ", " = 0 := rfl
    simp only [List.map_cons] at ih ⊢
    rw [strJoin, countQ_append, countQ_append, ih, h1, h2]
    simp [List.length_cons]
    omega

theorem rfqAux_spec (r : List Char) :
    ∀ (as bs : List Char), (∀ c ∈ as, c ≠ '?') →
      rfqAux r (as ++ '?' :: bs) = as ++ (r ++ bs)
  | [], bs, _ => by simp [rfqAux]
  | a :: as, bs, h => by
    have ha : a ≠ '?' := h a (by simp)
    have ih := rfqAux_spec r as bs (fun c hc => h c (by simp [hc]))
    show rfqAux r (a :: (as ++ '?' :: bs)) = a :: (as ++ (r ++ bs))
    rw [rfqAux, if_neg ha, ih]

theorem noQ_chars {s : String} (h : countQ s = 0) : ∀ c ∈ s.data, c ≠ '?' := by
  intro c hc
  have := List.countP_eq_zero.mp h c hc
  simpa using this

theorem replaceFirstQ_inTerm (name r : String) (h : countQ name = 0) :
    replaceFirstQ (name ++ " IN (?)") r = name ++ " IN (" ++ (r ++ ")") := by
  apply strEq_of_data
  have hd : (name ++ " IN (?)").data =
      (name.data ++ [' ', 'I', 'N', ' ', '(']) ++ '?' :: [')'] := by
    rw [strData_append]
    simp [List.append_assoc]
  have hpre : ∀ c ∈ name.data ++ [' ', 'I', 'N', ' ', '('], c ≠ '?' := by
    intro c hc
    rcases List.mem_append.mp hc with hc | hc
    · exact noQ_chars h c hc
    · fin_cases hc <;> decide
  rw [replaceFirstQ, hd, rfqAux_spec r.data _ _ hpre]
  rw [strData_append, strData_append, strData_append]

theorem term_args_balance (f : Filter) (h : countQ f.name = 0) :
    (whereTerm f).elim 0 countQ = (argsOfFilter f).length := by
  by_cases h7 : f.method ∈ scalarOps
  · have hterm : (whereTerm f).elim 0 countQ = countQ (translateMethod f.method) + 1 := by
      simp only [whereTerm, if_pos h7, Option.elim]
      rw [countQ_append, countQ_append, countQ_append, h,
        show countQ " " = 0 from rfl, show countQ " ?" = 1 from rfl]
      omega
    have hop : ∀ m ∈ scalarOps, countQ (translateMethod m) = 0 := by decide
    have hargs : (argsOfFilter f).length = 1 := by
      by_cases h6 : f.method ∈ (["EQ", "NE", "GT", "LT", "GTE", "LTE"] : List String)
      · simp [argsOfFilter, h6]
      · have hL : f.method = "LIKE" := by
          simp only [scalarOps, List.mem_cons, List.not_mem_nil, or_false] at h7
          simp only [List.mem_cons, List.not_mem_nil, or_false] at h6
          tauto
        simp [argsOfFilter, h6, hL]
    rw [hterm, hop _ h7, hargs]
  · by_cases hIN : f.method = "IN"
    · have h6 : f.method ∉ (["EQ", "NE", "GT", "LT", "GTE", "LTE"] : List String) := by
        simp only [scalarOps, List.mem_cons, List.not_mem_nil, or_false] at h7
        simp only [List.mem_cons, List.not_mem_nil, or_false]
        tauto
      have hL : ¬ f.method = "LIKE" := by
        simp only [scalarOps, List.mem_cons, List.not_mem_nil, or_false] at h7
        tauto
      have hargs : argsOfFilter f = (inExpand "?" f.value).2 := by
        simp only [argsOfFilter, if_neg h6, if_neg hL, if_pos hIN]
      have hterm : whereTerm f = some ((inExpand (f.name ++ " IN (?)") f.value).1) := by
        simp only [whereTerm, if_neg h7, if_pos hIN]
        rw [hIN, show translateMethod "IN" = "IN" from rfl, strAppend_assoc, strAppend_assoc,
          show (" " : String) ++ ("IN" ++ " (?)") = " IN (?)" from by decide]
      rw [hterm, hargs]
      cases f.value with
      | vList l =>
        simp only [Option.elim, inExpand]
        rw [replaceFirstQ_inTerm _ _ h, countQ_append, countQ_append, countQ_append, h,
          countQ_qmarks l, show countQ " IN (" = 0 from rfl, show countQ ")" = 0 from rfl]
        omega
      | vNil =>
        simp only [Option.elim, inExpand]
        rw [countQ_append, h, show countQ " IN (?)" = 1 from rfl]
        simp
      | vStr s =>
        simp only [Option.elim, inExpand]
        rw [countQ_append, h, show countQ " IN (?)" = 1 from rfl]
        simp
      | vInt n =>
        simp only [Option.elim, inExpand]
        rw [countQ_append, h, show countQ " IN (?)" = 1 from rfl]
        simp
      | vBool b =>
        simp only [Option.elim, inExpand]
        rw [countQ_append, h, show countQ " IN (?)" = 1 from rfl]
        simp
    · have h6 : f.method ∉ (["EQ", "NE", "GT", "LT", "GTE", "LTE"] : List String) := by
        simp only [scalarOps, List.mem_cons, List.not_mem_nil, or_false] at h7
        simp only [List.mem_cons, List.not_mem_nil, or_false]
        tauto
      have hL : f.method ≠ "LIKE" := by
        intro hmem
        apply h7
        simp [scalarOps, hmem]
      simp [whereTerm, argsOfFilter, h7, hIN, h6, hL]

theorem filterMap_countQ_sum : ∀ fs : List Filter,
    ((fs.filterMap whereTerm).map countQ).sum =
      (fs.map (fun f => (whereTerm f).elim 0 countQ)).sum
  | [] => rfl
  | f :: t => by
    cases hw : whereTerm f <;>
      simp [List.filterMap_cons, hw, filterMap_countQ_sum t, Option.elim]

theorem flatten_length_sum : ∀ fs : List Filter,
    ((fs.map argsOfFilter).flatten).length = (fs.map (fun f => (argsOfFilter f).length)).sum
  | [] => rfl
  | f :: t => by
    simp [List.flatten, flatten_length_sum t]

theorem mapSum_congr {α : Type} (g h : α → Nat) :
    ∀ l : List α, (∀ a ∈ l, g a = h a) → (l.map g).sum = (l.map h).sum
  | [], _ => rfl
  | a :: t, hall => by
    simp only [List.map_cons, List.sum_cons]
    rw [hall a (by simp), mapSum_congr g h t (fun b hb => hall b (by simp [hb]))]

/-! ## Claim C1 -/

/-- C1 (amended): for every parser state in which no filter's field name
contains the character `?` — in particular every such state reachable by a
successful `Parse()` — the total number of `?` occurrences in the string
returned by `Where()` equals the length of the list returned by `Args()`. -/
theorem where_args_placeholder_balance (p : QueryParser)
    (h : ∀ f ∈ p.filters, countQ f.name = 0) :
    countQ p.Where = p.Args.length := by
  unfold QueryParser.Where QueryParser.Args
  cases hfl : p.filters with
  | nil => rfl
  | cons f t =>
    rw [hfl] at h
    simp only [List.isEmpty_cons, Bool.false_eq_true, if_false]
    rw [countQ_strJoin " AND " (by decide), filterMap_countQ_sum, flatten_length_sum]
    exact mapSum_congr _ _ _ (fun a ha => term_args_balance a (h a ha))

/-- Witness for C1 at a filter list exercising the IN, LIKE and skipped (NOT)
branches. -/
theorem where_args_placeholder_balance_witness :
    (∀ f ∈ ({ defaults with filters := [⟨"a", "IN", .vList [.vStr "1", .vStr "2"]⟩,
        ⟨"b", "LIKE", .vStr "x*"⟩, ⟨"c", "NOT", .vNil⟩] } : QueryParser).filters,
      countQ f.name = 0) ∧
    countQ ({ defaults with filters := [⟨"a", "IN", .vList [.vStr "1", .vStr "2"]⟩,
        ⟨"b", "LIKE", .vStr "x*"⟩, ⟨"c", "NOT", .vNil⟩] } : QueryParser).Where =
      ({ defaults with filters := [⟨"a", "IN", .vList [.vStr "1", .vStr "2"]⟩,
        ⟨"b", "LIKE", .vStr "x*"⟩, ⟨"c", "NOT", .vNil⟩] } : QueryParser).Args.length :=
  ⟨by decide, where_args_placeholder_balance _ (by decide)⟩

/-- C1 counterexample, as the claim is stated: the state reached by a
successful `Parse()` of query `{"a?": ["x"]}` under validations `{"a?": nil}`
has a `Where()` string with two `?` occurrences (the field name `a?` is
inserted verbatim) but an `Args()` list of length one. -/
theorem where_args_placeholder_balance_cx :
    (QueryParser.Parse { defaults with query := [("a?", ["x"])], validations := [("a?", none)] }).2 = none ∧
    countQ (QueryParser.Where (QueryParser.Parse { defaults with query := [("a?", ["x"])], validations := [("a?", none)] }).1) = 2 ∧
    ((QueryParser.Parse { defaults with query := [("a?", ["x"])], validations := [("a?", none)] }).1.Args).length = 1 :=
  ⟨by decide, by decide, by decide⟩

/-! ## Claim C2 -/

theorem whereTerm_spec (f : Filter)
    (h8 : f.method ∈ (["EQ", "NE", "GT", "LT", "GTE", "LTE", "LIKE", "IN"] : List String))
    (hin : f.method = "IN" → countQ f.name = 0 ∧ valueIsList f.value = true) :
    whereTerm f = some (specTermOf f) := by
  by_cases hIN : f.method = "IN"
  · obtain ⟨hq, hl⟩ := hin hIN
    have h7 : f.method ∉ scalarOps := by rw [hIN]; decide
    cases hv : f.value with
    | vList l =>
      simp only [whereTerm, if_neg h7, if_pos hIN, specTermOf, if_pos hIN]
      rw [hv, hIN, show translateMethod "IN" = "IN" from rfl, strAppend_assoc, strAppend_assoc,
        show (" " : String) ++ ("IN" ++ " (?)") = " IN (?)" from by decide]
      simp only [inExpand, valueElems]
      rw [replaceFirstQ_inTerm _ _ hq]
      simp [strAppend_assoc]
    | vNil => rw [hv] at hl; cases hl
    | vStr s => rw [hv] at hl; cases hl
    | vInt n => rw [hv] at hl; cases hl
    | vBool b => rw [hv] at hl; cases hl
  · have h7 : f.method ∈ scalarOps := by
      simp only [List.mem_cons, List.not_mem_nil, or_false] at h8
      simp only [scalarOps, List.mem_cons, List.not_mem_nil, or_false]
      tauto
    simp only [whereTerm, if_pos h7, specTermOf, if_neg hIN]

theorem filterMap_whereTerm_eq :
    ∀ fs : List Filter,
      (∀ f ∈ fs,
        f.method ∈ (["EQ", "NE", "GT", "LT", "GTE", "LTE", "LIKE", "IN"] : List String) ∧
        (f.method = "IN" → countQ f.name = 0 ∧ valueIsList f.value = true)) →
      fs.filterMap whereTerm = fs.map specTermOf
  | [], _ => rfl
  | f :: t, h => by
    have hf := h f (by simp)
    rw [List.filterMap_cons, whereTerm_spec f hf.1 hf.2, List.map_cons,
      filterMap_whereTerm_eq t (fun a ha => h a (by simp [ha]))]

/-- C2 (amended): for every filter list whose filters use the methods EQ, NE,
GT, LT, GTE, LTE, LIKE or IN — a NOT filter is silently skipped by `Where()`
rather than rendered with operator `NOT` — where every IN filter carries a
value sequence and a `?`-free field name, `Where()` returns the AND-joined
list of `field OPERATOR ?` terms in filter-list order under the fixed
method-to-operator mapping, with IN rendered as `field IN (?, ?, …)`, one
placeholder per element of the filter's value sequence. -/
theorem where_renders_spec_terms (p : QueryParser)
    (h : ∀ f ∈ p.filters,
      f.method ∈ (["EQ", "NE", "GT", "LT", "GTE", "LTE", "LIKE", "IN"] : List String) ∧
      (f.method = "IN" → countQ f.name = 0 ∧ valueIsList f.value = true)) :
    p.Where = strJoin " AND " (p.filters.map specTermOf) := by
  unfold QueryParser.Where
  cases hfl : p.filters with
  | nil => rfl
  | cons f t =>
    rw [hfl] at h
    simp only [List.isEmpty_cons, Bool.false_eq_true, if_false]
    rw [filterMap_whereTerm_eq (f :: t) h]

/-- Witness for C2 at a filter list with one scalar and one IN filter. -/
theorem where_renders_spec_terms_witness :
    (∀ f ∈ ({ defaults with filters := [⟨"n", "GTE", .vInt 5⟩,
        ⟨"id", "IN", .vList [.vInt 1, .vInt 2]⟩] } : QueryParser).filters,
      f.method ∈ (["EQ", "NE", "GT", "LT", "GTE", "LTE", "LIKE", "IN"] : List String) ∧
      (f.method = "IN" → countQ f.name = 0 ∧ valueIsList f.value = true)) ∧
    ({ defaults with filters := [⟨"n", "GTE", .vInt 5⟩,
        ⟨"id", "IN", .vList [.vInt 1, .vInt 2]⟩] } : QueryParser).Where =
      strJoin " AND " (({ defaults with filters := [⟨"n", "GTE", .vInt 5⟩,
        ⟨"id", "IN", .vList [.vInt 1, .vInt 2]⟩] } : QueryParser).filters.map specTermOf) :=
  ⟨by decide, where_renders_spec_terms _ (by decide)⟩

/-- C2 counterexample, as the claim is stated: a filter with method NOT is not
rendered as `a NOT ?` (the `switch` in `Where()` has no `MethodNOT` case and
falls to `default: continue`); `Where()` returns the empty string instead. -/
theorem where_not_filter_skipped_cx :
    QueryParser.Where { defaults with filters := [⟨"a", "NOT", .vStr "x"⟩] } = "" ∧
    ("a NOT ?" : String) ≠ "" :=
  ⟨by decide, by decide⟩

/-! ## Claim C3 -/

theorem resolveAllowed_fst (name : String) (vf : Option VFun) :
    ∀ vs : List (String × Option VFun),
      (resolveAllowed name vf vs).1 = vs.any (fun kv => matchesEntry kv.1 name)
  | [] => rfl
  | (k, v) :: rest => by
    have ih := resolveAllowed_fst name vf rest
    simp only [resolveAllowed, List.any_cons, ← ih]
    cases hsp : strSplit k ":" with
    | nil =>
      rw [show matchesEntry k name = (k == name) from by unfold matchesEntry; rw [hsp]]
      by_cases hk : k = name
      · simp [hk]
      · rw [if_neg hk, show (k == name) = false from by simp [hk], Bool.false_or]
    | cons s0 tl =>
      cases tl with
      | nil =>
        rw [show matchesEntry k name = (k == name) from by unfold matchesEntry; rw [hsp]]
        by_cases hk : k = name
        · simp [hk]
        · rw [if_neg hk, show (k == name) = false from by simp [hk], Bool.false_or]
      | cons s1 tl2 =>
        rw [show matchesEntry k name = (s0 == name) from by unfold matchesEntry; rw [hsp]]
        change (if s0 = name then ((true, v, s1) : Bool × Option VFun × String)
          else resolveAllowed name vf rest).1 = (s0 == name || (resolveAllowed name vf rest).1)
        by_cases hk : s0 = name
        · simp [hk]
        · rw [if_neg hk, show (s0 == name) = false from by simp [hk], Bool.false_or]

theorem parseLoop_skips :
    ∀ (q : List (String × List String)) (p : QueryParser),
      (∀ kv ∈ q, isReservedKey kv.1 = false ∧
        ∃ f, parseFilterKey kv.1 = Except.ok f ∧
          (p.validations.any fun kv2 => matchesEntry kv2.1 f.name) = false) →
      p.ignoreUnknown = true → parseLoop q p = (p, none)
  | [], _, _, _ => rfl
  | (key, value) :: rest, p, h, hig => by
    obtain ⟨hr, f, hf, hmatch⟩ := h (key, value) (by simp)
    simp only [isReservedKey, List.mem_cons, List.not_mem_nil, or_false,
      decide_eq_false_iff_not, not_or] at hr
    obtain ⟨h1, h2, h3, h4⟩ := hr
    simp only [parseLoop, h1, h2, h3, h4, if_false, hf, resolveAllowed_fst, hmatch, hig,
      if_true]
    exact parseLoop_skips rest p (fun kv hkv => h kv (by simp [hkv])) hig

/-- C4: for a well-formed non-reserved filter key whose field name matches no
validation-table entry: with `IgnoreUnknownFilters` false (the default),
`Parse()` fails with `FilterNotAllowed`; with it true, `Parse()` succeeds
leaving the state untouched (no `Filter` recorded), and when the filter list
is empty — e.g. an empty validation table with only such keys — `Where()`
returns the empty string. -/
theorem unknown_filter_policy :
    (∀ (p : QueryParser) (key : String) (value : List String) (f : Filter),
      p.query = [(key, value)] → isReservedKey key = false →
      parseFilterKey key = .ok f →
      (p.validations.any fun kv => matchesEntry kv.1 f.name) = false →
      p.ignoreUnknown = false →
      p.Parse = (p, some .filterNotAllowed)) ∧
    (∀ p : QueryParser, (∀ kv ∈ p.query, isReservedKey kv.1 = false ∧
        ∃ f, parseFilterKey kv.1 = Except.ok f ∧
          (p.validations.any fun kv2 => matchesEntry kv2.1 f.name) = false) →
      p.ignoreUnknown = true →
      p.Parse = (p, none) ∧ (p.filters = [] → p.Parse.1.Where = "")) := by
  constructor
  · intro p key value f hq hr hf hmatch hig
    simp only [isReservedKey, List.mem_cons, List.not_mem_nil, or_false,
      decide_eq_false_iff_not, not_or] at hr
    obtain ⟨h1, h2, h3, h4⟩ := hr
    unfold QueryParser.Parse
    rw [hq]
    simp only [parseLoop, h1, h2, h3, h4, if_false, hf, resolveAllowed_fst, hmatch, hig,
      Bool.false_eq_true, if_true]
  · intro p h hig
    have hparse : p.Parse = (p, none) := parseLoop_skips p.query p h hig
    refine ⟨hparse, fun hfl => ?_⟩
    rw [hparse]
    simp [QueryParser.Where, hfl]

/-- Witness for C4 at validations `{}` and query `{"secret": ["x"]}`. -/
theorem unknown_filter_policy_witness :
    QueryParser.Parse { defaults with query := [("secret", ["x"])] } =
      ({ defaults with query := [("secret", ["x"])] }, some .filterNotAllowed) ∧
    QueryParser.Parse { defaults with query := [("secret", ["x"])], ignoreUnknown := true } =
      ({ defaults with query := [("secret", ["x"])], ignoreUnknown := true }, none) ∧
    QueryParser.Where (QueryParser.Parse { defaults with query := [("secret", ["x"])], ignoreUnknown := true }).1 = "" := by
  have hskip := unknown_filter_policy.2
    { defaults with query := [("secret", ["x"])], ignoreUnknown := true }
    (by
      intro kv hkv
      simp only [List.mem_cons, List.not_mem_nil, or_false] at hkv
      subst hkv
      exact ⟨by decide, ⟨"secret", "EQ", .vNil⟩, rfl, by decide⟩)
    rfl
  exact ⟨unknown_filter_policy.1 _ "secret" ["x"] ⟨"secret", "EQ", .vNil⟩ rfl (by decide)
      rfl (by decide) rfl,
    hskip.1, hskip.2 rfl⟩

/-! ## Claim C5 -/

/-- C5: for a LIKE filter key `f:LIKE` with a raw value `s` free of the
delimiter, allowed by a bare validation entry, a successful `Parse()` records
the filter value verbatim — the stored value keeps every `*`, which is what
any validation function would see — while the corresponding element of
`Args()` is `s` with every `*` replaced by `%` and every other character
unchanged. -/
theorem like_stores_star_args_percent (p : QueryParser) (s : String)
    (hq : p.query = [("f:LIKE", [s])])
    (hv : p.validations = [("f", none)])
    (hd : strContains s p.delimiter = false) :
    (QueryParser.Parse p).2 = none ∧
    (QueryParser.Parse p).1.filters = p.filters ++ [⟨"f", "LIKE", .vStr s⟩] ∧
    (p.filters = [] →
      (QueryParser.Parse p).1.Args =
        [.vStr ⟨s.data.map fun c => if c = '*' then '%' else c⟩]) := by
  have hsplit : splitIfContains p.delimiter s = [s] := by
    unfold splitIfContains
    rw [hd]
    simp
  have hpfv : parseFilterValue p ⟨"f", "LIKE", Value.vNil⟩ "string" [s] none =
      ({ p with filters := p.filters ++ [⟨"f", "LIKE", Value.vStr s⟩] }, none) := by
    unfold parseFilterValue
    simp [hsplit, coerceTokens, coerceToken]
  unfold QueryParser.Parse
  rw [hq]
  simp only [parseLoop,
    if_neg (show ¬ strToUpper "f:LIKE" = "FIELDS" from by decide),
    if_neg (show ¬ strToUpper "f:LIKE" = "OFFSET" from by decide),
    if_neg (show ¬ strToUpper "f:LIKE" = "LIMIT" from by decide),
    if_neg (show ¬ strToUpper "f:LIKE" = "SORT" from by decide),
    show parseFilterKey "f:LIKE" = Except.ok ⟨"f", "LIKE", Value.vNil⟩ from rfl]
  rw [hv]
  rw [show lookupVF [("f", none)] "f" = none from rfl]
  rw [if_pos (show (resolveAllowed "f" none [("f", none)]).1 = true from rfl)]
  rw [show (resolveAllowed "f" none [("f", none)]).2.2 = "string" from rfl,
    show (resolveAllowed "f" none [("f", none)]).2.1 = none from rfl]
  rw [hpfv]
  refine ⟨rfl, rfl, fun hfl => ?_⟩
  simp [QueryParser.Args, hfl, argsOfFilter, likeArg, replaceStars, inExpand]
  rfl

/-- Witness for C5 at value `a*b*`. -/
theorem like_stores_star_args_percent_witness :
    (QueryParser.Parse { defaults with query := [("f:LIKE", ["a*b*"])], validations := [("f", none)] }).2 = none ∧
    (QueryParser.Parse { defaults with query := [("f:LIKE", ["a*b*"])], validations := [("f", none)] }).1.filters =
      ({ defaults with query := [("f:LIKE", ["a*b*"])], validations := [("f", none)] } : QueryParser).filters ++
        [⟨"f", "LIKE", .vStr "a*b*"⟩] ∧
    (({ defaults with query := [("f:LIKE", ["a*b*"])], validations := [("f", none)] } : QueryParser).filters = [] →
      (QueryParser.Parse { defaults with query := [("f:LIKE", ["a*b*"])], validations := [("f", none)] }).1.Args =
        [.vStr ⟨("a*b*").data.map fun c => if c = '*' then '%' else c⟩]) :=
  like_stores_star_args_percent _ "a*b*" rfl rfl (by decide)

/-! ## Claim C6 -/

theorem sortLoop_none : ∀ (l : List String) (p : QueryParser),
    sortLoop none l p = ({ p with sort := p.sort ++ l.map sortTokenOf }, none)
  | [], p => by
    show (p, none) = ({ p with sort := p.sort ++ [] }, none)
    rw [List.append_nil]
  | v :: rest, p => by
    simp only [sortLoop]
    rw [sortLoop_none rest { p with sort := p.sort ++ [sortTokenOf v] }]
    simp [List.append_assoc]

/-- C6: the SORT parameter requires exactly one raw value (anything else is
BadFormat); a token with leading `-` is descending and leading `+` ascending,
the sign stripped to yield the field name, and a token with no leading sign is
ascending; with no validation attached, the directives of the delimiter-split
token list are appended in token order; concretely, `-name,+age` with
delimiter `,` parses to `[{by:name, desc:true}, {by:age, desc:false}]` and
`Sort()` renders `ORDER BY name DESC, age`. -/
theorem sort_parsing :
    (∀ (p : QueryParser) (value : List String) (vf : Option VFun), value.length ≠ 1 →
      parseSort p value vf = (p, some .badFormat)) ∧
    (∀ cs : List Char,
      sortTokenOf ⟨'-' :: cs⟩ = ⟨⟨cs⟩, true⟩ ∧ sortTokenOf ⟨'+' :: cs⟩ = ⟨⟨cs⟩, false⟩) ∧
    (∀ (c : Char) (cs : List Char), c ≠ '-' → c ≠ '+' →
      sortTokenOf ⟨c :: cs⟩ = ⟨⟨c :: cs⟩, false⟩) ∧
    (∀ (p : QueryParser) (v : String),
      parseSort p [v] none =
        ({ p with sort :=
            p.sort ++ (cleanSliceString (splitIfContains p.delimiter v)).map sortTokenOf },
          none)) ∧
    (parseSort defaults ["-name,+age"] none).1.sort = [⟨"name", true⟩, ⟨"age", false⟩] ∧
    QueryParser.SortClause (parseSort defaults ["-name,+age"] none).1 =
      "ORDER BY name DESC, age" := by
  refine ⟨?_, ?_, ?_, ?_, by decide, by decide⟩
  · intro p value vf hlen
    match value with
    | [] => rfl
    | [v] => simp at hlen
    | a :: b :: t => rfl
  · intro cs
    exact ⟨rfl, rfl⟩
  · intro c cs hm hp
    unfold sortTokenOf
    simp [hm, hp]
  · intro p v
    unfold parseSort
    exact sortLoop_none _ p

/-- Witness for C6: zero raw values fail with BadFormat, and an unsigned token
is ascending. -/
theorem sort_parsing_witness :
    parseSort defaults [] none = (defaults, some .badFormat) ∧
    sortTokenOf ⟨'n' :: ['a']⟩ = ⟨⟨'n' :: ['a']⟩, false⟩ :=
  ⟨sort_parsing.1 defaults [] none (by decide),
    sort_parsing.2.2.1 'n' ['a'] (by decide) (by decide)⟩

/-! ## Claim C7 -/

theorem sortLoop_ErrorMessage (vf : Option VFun) : ∀ (l : List String) (p : QueryParser),
    ((sortLoop vf l p).1).ErrorMessage = p.ErrorMessage
  | [], _ => rfl
  | v :: rest, p => by
    simp only [sortLoop]
    cases vf with
    | some f =>
      cases hfe : f (.vStr (sortTokenOf v).sortBy) with
      | some e => simp [hfe]
      | none =>
        simp only [hfe]
        exact sortLoop_ErrorMessage (some f) rest _
    | none => exact sortLoop_ErrorMessage none rest _

theorem parseSort_ErrorMessage (p : QueryParser) (value : List String) (vf : Option VFun) :
    ((parseSort p value vf).1).ErrorMessage = p.ErrorMessage := by
  match value with
  | [] => rfl
  | [v] => exact sortLoop_ErrorMessage vf _ p
  | a :: b :: t => rfl

theorem parseFields_ErrorMessage (p : QueryParser) (value : List String) (vf : Option VFun) :
    ((parseFields p value vf).1).ErrorMessage = p.ErrorMessage := by
  match value with
  | [] => rfl
  | [v] =>
    cases vf with
    | some f =>
      simp only [parseFields]
      cases hfe : validateEach f
          ((cleanSliceString (splitIfContains p.delimiter v)).map Value.vStr) with
      | some e => simp [hfe]
      | none => simp [hfe]
    | none => rfl
  | a :: b :: t => rfl

theorem parseOffset_ErrorMessage (p : QueryParser) (value : List String) (vf : Option VFun) :
    ((parseOffset p value vf).1).ErrorMessage = p.ErrorMessage := by
  match value with
  | [] => rfl
  | [v] =>
    by_cases hv : v = ""
    · simp [parseOffset, hv]
    · simp only [parseOffset]
      rw [if_neg hv]
      cases ha : atoi v with
      | none => rfl
      | some n =>
        cases vf with
        | none => rfl
        | some f => cases hfe : f (.vInt n) <;> simp [hfe]
  | a :: b :: t => rfl

theorem parseLimit_ErrorMessage (p : QueryParser) (value : List String) (vf : Option VFun) :
    ((parseLimit p value vf).1).ErrorMessage = p.ErrorMessage := by
  match value with
  | [] => rfl
  | [v] =>
    by_cases hv : v = ""
    · simp [parseLimit, hv]
    · simp only [parseLimit]
      rw [if_neg hv]
      cases ha : atoi v with
      | none => rfl
      | some n =>
        cases vf with
        | none => rfl
        | some f => cases hfe : f (.vInt n) <;> simp [hfe]
  | a :: b :: t => rfl

/-- C7 (amended): when the validation function rejects a coerced value of a
filter key, `Parse()` returns that error verbatim and sets the top-level
`ErrorMessage` to `"<key>: <underlying error>"`; but when a validation
function rejects a value or field name of any of the four reserved keys —
FIELDS, OFFSET, LIMIT or SORT — the error is returned verbatim without
setting `ErrorMessage`. -/
theorem validation_error_message :
    (∀ (p p1 : QueryParser) (key : String) (value : List String) (f : Filter) (e : Err),
      p.query = [(key, value)] → isReservedKey key = false →
      parseFilterKey key = .ok f →
      (resolveAllowed f.name (lookupVF p.validations f.name) p.validations).1 = true →
      parseFilterValue p f
          (resolveAllowed f.name (lookupVF p.validations f.name) p.validations).2.2 value
          (resolveAllowed f.name (lookupVF p.validations f.name) p.validations).2.1 =
        (p1, some e) →
      p.Parse = ({ p1 with ErrorMessage := key ++ ": " ++ errString e }, some e)) ∧
    (∀ (p p1 : QueryParser) (key : String) (value : List String) (e : Err),
      p.query = [(key, value)] → strToUpper key = "FIELDS" →
      parseFields p value (lookupVF p.validations key) = (p1, some e) →
      p.Parse = (p1, some e) ∧ p1.ErrorMessage = p.ErrorMessage) ∧
    (∀ (p p1 : QueryParser) (key : String) (value : List String) (e : Err),
      p.query = [(key, value)] → strToUpper key = "OFFSET" →
      parseOffset p value (lookupVF p.validations key) = (p1, some e) →
      p.Parse = (p1, some e) ∧ p1.ErrorMessage = p.ErrorMessage) ∧
    (∀ (p p1 : QueryParser) (key : String) (value : List String) (e : Err),
      p.query = [(key, value)] → strToUpper key = "LIMIT" →
      parseLimit p value (lookupVF p.validations key) = (p1, some e) →
      p.Parse = (p1, some e) ∧ p1.ErrorMessage = p.ErrorMessage) ∧
    (∀ (p p1 : QueryParser) (key : String) (value : List String) (e : Err),
      p.query = [(key, value)] → strToUpper key = "SORT" →
      parseSort p value (lookupVF p.validations key) = (p1, some e) →
      p.Parse = (p1, some e) ∧ p1.ErrorMessage = p.ErrorMessage) := by
  refine ⟨?_, ?_, ?_, ?_, ?_⟩
  · intro p p1 key value f e hq hr hf hall hpv
    simp only [isReservedKey, List.mem_cons, List.not_mem_nil, or_false,
      decide_eq_false_iff_not, not_or] at hr
    obtain ⟨h1, h2, h3, h4⟩ := hr
    unfold QueryParser.Parse
    rw [hq]
    simp only [parseLoop, h1, h2, h3, h4, if_false, hf]
    rw [if_pos hall, hpv]
  · intro p p1 key value e hq hu hps
    constructor
    · unfold QueryParser.Parse
      rw [hq]
      simp only [parseLoop, hu]
      rw [if_pos trivial, hps]
    · have h := parseFields_ErrorMessage p value (lookupVF p.validations key)
      rw [hps] at h
      exact h
  · intro p p1 key value e hq hu hps
    constructor
    · unfold QueryParser.Parse
      rw [hq]
      simp only [parseLoop, hu]
      rw [if_pos trivial, hps]
      rw [if_neg (show ¬ ("OFFSET" : String) = "FIELDS" from by decide)]
    · have h := parseOffset_ErrorMessage p value (lookupVF p.validations key)
      rw [hps] at h
      exact h
  · intro p p1 key value e hq hu hps
    constructor
    · unfold QueryParser.Parse
      rw [hq]
      simp only [parseLoop, hu]
      rw [if_pos trivial, hps]
      rw [if_neg (show ¬ ("LIMIT" : String) = "FIELDS" from by decide),
        if_neg (show ¬ ("LIMIT" : String) = "OFFSET" from by decide)]
    · have h := parseLimit_ErrorMessage p value (lookupVF p.validations key)
      rw [hps] at h
      exact h
  · intro p p1 key value e hq hu hps
    constructor
    · unfold QueryParser.Parse
      rw [hq]
      simp only [parseLoop, hu]
      rw [if_pos trivial, hps]
      rw [if_neg (show ¬ ("SORT" : String) = "FIELDS" from by decide),
        if_neg (show ¬ ("SORT" : String) = "OFFSET" from by decide),
        if_neg (show ¬ ("SORT" : String) = "LIMIT" from by decide)]
    · have h := parseSort_ErrorMessage p value (lookupVF p.validations key)
      rw [hps] at h
      exact h

/-- Witness for C7: a filter key whose validation function rejects the value
(Parse returns the error and annotates ErrorMessage with the key), and each
of the four reserved keys with a rejecting validation function (the error is
returned with ErrorMessage left untouched). -/
theorem validation_error_message_witness :
    QueryParser.Parse { defaults with query := [("name", ["x"])], validations := [("name", some (fun _ => some (.custom "bad")))] } =
      ({ { defaults with query := [("name", ["x"])], validations := [("name", some (fun _ => some (.custom "bad")))] } with
          ErrorMessage := "name" ++ ": " ++ errString (.custom "bad") }, some (.custom "bad")) ∧
    (QueryParser.Parse { defaults with query := [("fields", ["a"])], validations := [("fields", some (fun _ => some (.custom "no")))] } =
      ({ defaults with query := [("fields", ["a"])], validations := [("fields", some (fun _ => some (.custom "no")))] }, some (.custom "no")) ∧
      ({ defaults with query := [("fields", ["a"])], validations := [("fields", some (fun _ => some (.custom "no")))] } : QueryParser).ErrorMessage =
        ({ defaults with query := [("fields", ["a"])], validations := [("fields", some (fun _ => some (.custom "no")))] } : QueryParser).ErrorMessage) ∧
    (QueryParser.Parse { defaults with query := [("offset", ["7"])], validations := [("offset", some (fun _ => some (.custom "no")))] } =
      ({ { defaults with query := [("offset", ["7"])], validations := [("offset", some (fun _ => some (.custom "no")))] } with offset := 7 }, some (.custom "no")) ∧
      ({ { defaults with query := [("offset", ["7"])], validations := [("offset", some (fun _ => some (.custom "no")))] } with offset := 7 } : QueryParser).ErrorMessage =
        ({ defaults with query := [("offset", ["7"])], validations := [("offset", some (fun _ => some (.custom "no")))] } : QueryParser).ErrorMessage) ∧
    (QueryParser.Parse { defaults with query := [("limit", ["7"])], validations := [("limit", some (fun _ => some (.custom "no")))] } =
      ({ { defaults with query := [("limit", ["7"])], validations := [("limit", some (fun _ => some (.custom "no")))] } with limit := 7 }, some (.custom "no")) ∧
      ({ { defaults with query := [("limit", ["7"])], validations := [("limit", some (fun _ => some (.custom "no")))] } with limit := 7 } : QueryParser).ErrorMessage =
        ({ defaults with query := [("limit", ["7"])], validations := [("limit", some (fun _ => some (.custom "no")))] } : QueryParser).ErrorMessage) ∧
    (QueryParser.Parse { defaults with query := [("sort", ["x"])], validations := [("sort", some (fun _ => some (.custom "no")))] } =
      ({ defaults with query := [("sort", ["x"])], validations := [("sort", some (fun _ => some (.custom "no")))] }, some (.custom "no")) ∧
      ({ defaults with query := [("sort", ["x"])], validations := [("sort", some (fun _ => some (.custom "no")))] } : QueryParser).ErrorMessage =
        ({ defaults with query := [("sort", ["x"])], validations := [("sort", some (fun _ => some (.custom "no")))] } : QueryParser).ErrorMessage) :=
  ⟨validation_error_message.1 _ _ "name" ["x"] ⟨"name", "EQ", .vNil⟩ (.custom "bad")
      rfl (by decide) rfl rfl rfl,
    validation_error_message.2.1 _ _ "fields" ["a"] (.custom "no") rfl (by decide) rfl,
    validation_error_message.2.2.1 _ _ "offset" ["7"] (.custom "no") rfl (by decide) rfl,
    validation_error_message.2.2.2.1 _ _ "limit" ["7"] (.custom "no") rfl (by decide) rfl,
    validation_error_message.2.2.2.2 _ _ "sort" ["x"] (.custom "no") rfl (by decide) rfl⟩

/-- C7 counterexample, as the claim is stated: a SORT validation function
rejects the field name; Parse returns the error but `ErrorMessage` stays
empty instead of `"sort: rejected"`. -/
theorem validation_error_message_cx :
    (QueryParser.Parse { defaults with query := [("sort", ["x"])], validations := [("sort", some (fun _ => some (.custom "rejected")))] }).2 = some (.custom "rejected") ∧
    (QueryParser.Parse { defaults with query := [("sort", ["x"])], validations := [("sort", some (fun _ => some (.custom "rejected")))] }).1.ErrorMessage = "" ∧
    ("" : String) ≠ "sort: rejected" :=
  ⟨by rfl, by rfl, by decide⟩

/-! ## Claim C8 -/

theorem parseFields_single (p : QueryParser) (v : String) :
    parseFields p [v] none =
      ({ p with fields := cleanSliceString (splitIfContains p.delimiter v) }, none) := rfl

/-- C8: `Fields()` returns `*` when the parsed fields list is empty and the
comma-joined field list otherwise; the FIELDS parameter requires exactly one
raw value (anything else fails with BadFormat), and one raw value is split on
the delimiter, cleaned (tokens trimmed, empties dropped) and stored as the
Fields list. -/
theorem fields_parsing :
    (∀ p : QueryParser, (p.fields = [] → p.Fields = "*") ∧
      (p.fields ≠ [] → p.Fields = strJoin ", " p.fields)) ∧
    (∀ (p : QueryParser) (value : List String) (vf : Option VFun), value.length ≠ 1 →
      parseFields p value vf = (p, some .badFormat)) ∧
    (∀ (p : QueryParser) (v : String),
      parseFields p [v] none =
        ({ p with fields := cleanSliceString (splitIfContains p.delimiter v) }, none)) := by
  refine ⟨?_, ?_, fun p v => parseFields_single p v⟩
  · intro p
    constructor
    · intro h
      simp [QueryParser.Fields, h]
    · intro h
      simp only [QueryParser.Fields]
      rw [if_neg (by simpa using h)]
  · intro p value vf hlen
    match value with
    | [] => rfl
    | [v] => simp at hlen
    | a :: b :: t => rfl

/-- Witness for C8: no fields gives `*`, two raw values give BadFormat, one
value is split and stored. -/
theorem fields_parsing_witness :
    QueryParser.Fields defaults = "*" ∧
    parseFields defaults ["a", "b"] none = (defaults, some .badFormat) ∧
    parseFields defaults ["a,b"] none =
      ({ defaults with fields := cleanSliceString (splitIfContains defaults.delimiter "a,b") }, none) :=
  ⟨(fields_parsing.1 defaults).1 rfl,
    fields_parsing.2.1 defaults ["a", "b"] none (by decide),
    fields_parsing.2.2 defaults "a,b"⟩

/-! ## Claim C9 -/

/-- C9: the reserved keys are recognized case-insensitively (`limit`, `sOrT`,
`fields` and `offset` all dispatch to their handlers), but the validation
function for a reserved key is looked up under the exact, case-preserved
query key: for validation entries stored under the upper-case names, the
lookup under `limit` finds nothing and — whatever function `f` is, including
one rejecting everything — no validation function is ever applied, so Parse
succeeds and sets all four state fields. -/
theorem reserved_key_case_mismatch (f : VFun) :
    lookupVF [("LIMIT", some f), ("SORT", some f), ("FIELDS", some f), ("OFFSET", some f)]
      "limit" = none ∧
    QueryParser.Parse { defaults with query := [("limit", ["10"]), ("sOrT", ["-a"]), ("fields", ["x"]), ("offset", ["3"])], validations := [("LIMIT", some f), ("SORT", some f), ("FIELDS", some f), ("OFFSET", some f)] } =
      ({ defaults with query := [("limit", ["10"]), ("sOrT", ["-a"]), ("fields", ["x"]), ("offset", ["3"])], validations := [("LIMIT", some f), ("SORT", some f), ("FIELDS", some f), ("OFFSET", some f)], limit := 10, sort := [⟨"a", true⟩], fields := ["x"], offset := 3 }, none) :=
  ⟨rfl, rfl⟩

/-! ## Claim C10 -/

theorem parseLoop_cons_fields {p p1 : QueryParser} {key : String} {value : List String}
    (rest : List (String × List String)) (hk : strToUpper key = "FIELDS")
    (h : parseFields p value (lookupVF p.validations key) = (p1, none)) :
    parseLoop ((key, value) :: rest) p = parseLoop rest p1 := by
  simp only [parseLoop, hk]
  rw [if_pos trivial, h]

theorem parseLoop_cons_offset {p p1 : QueryParser} {key : String} {value : List String}
    (rest : List (String × List String)) (hk : strToUpper key = "OFFSET")
    (h : parseOffset p value (lookupVF p.validations key) = (p1, none)) :
    parseLoop ((key, value) :: rest) p = parseLoop rest p1 := by
  simp only [parseLoop, hk]
  rw [if_neg (show ¬ ("OFFSET" : String) = "FIELDS" from by decide), if_pos trivial, h]

theorem parseLoop_cons_limit {p p1 : QueryParser} {key : String} {value : List String}
    (rest : List (String × List String)) (hk : strToUpper key = "LIMIT")
    (h : parseLimit p value (lookupVF p.validations key) = (p1, none)) :
    parseLoop ((key, value) :: rest) p = parseLoop rest p1 := by
  simp only [parseLoop, hk]
  rw [if_neg (show ¬ ("LIMIT" : String) = "FIELDS" from by decide),
    if_neg (show ¬ ("LIMIT" : String) = "OFFSET" from by decide), if_pos trivial, h]

theorem parseLoop_cons_sort {p p1 : QueryParser} {key : String} {value : List String}
    (rest : List (String × List String)) (hk : strToUpper key = "SORT")
    (h : parseSort p value (lookupVF p.validations key) = (p1, none)) :
    parseLoop ((key, value) :: rest) p = parseLoop rest p1 := by
  simp only [parseLoop, hk]
  rw [if_neg (show ¬ ("SORT" : String) = "FIELDS" from by decide),
    if_neg (show ¬ ("SORT" : String) = "OFFSET" from by decide),
    if_neg (show ¬ ("SORT" : String) = "LIMIT" from by decide), if_pos trivial, h]

theorem parseOffset_ok (p : QueryParser) (v : String)
    (h : v = "" ∨ (atoi v).isSome = true) :
    parseOffset p [v] none = ({ p with offset := offsetResult p.offset v }, none) := by
  obtain rfl | hv := h
  · rfl
  · obtain ⟨n, hn⟩ := Option.isSome_iff_exists.mp hv
    have hne : ¬ v = "" := by
      intro h0
      rw [h0, show atoi "" = none from rfl] at hn
      exact Option.noConfusion hn
    simp [parseOffset, hne, hn, offsetResult]

theorem parseLimit_ok (p : QueryParser) (v : String)
    (h : v = "" ∨ (atoi v).isSome = true) :
    parseLimit p [v] none = ({ p with limit := offsetResult p.limit v }, none) := by
  obtain rfl | hv := h
  · rfl
  · obtain ⟨n, hn⟩ := Option.isSome_iff_exists.mp hv
    have hne : ¬ v = "" := by
      intro h0
      rw [h0, show atoi "" = none from rfl] at hn
      exact Option.noConfusion hn
    simp [parseLimit, hne, hn, offsetResult]

theorem parseSort_single (p : QueryParser) (v : String) :
    parseSort p [v] none =
      ({ p with sort :=
          p.sort ++ (cleanSliceString (splitIfContains p.delimiter v)).map sortTokenOf },
        none) := by
  unfold parseSort
  exact sortLoop_none _ p

theorem offsetResult_idem (old : Int) (v : String) :
    offsetResult (offsetResult old v) v = offsetResult old v := by
  unfold offsetResult
  cases atoi v <;> simp

theorem parse_four (p : QueryParser) (fv ov lv sv : String)
    (hq : p.query = [("FIELDS", [fv]), ("OFFSET", [ov]), ("LIMIT", [lv]), ("SORT", [sv])])
    (hval : p.validations = [])
    (ho : ov = "" ∨ (atoi ov).isSome = true) (hl : lv = "" ∨ (atoi lv).isSome = true) :
    p.Parse = ({ p with
        fields := cleanSliceString (splitIfContains p.delimiter fv),
        offset := offsetResult p.offset ov,
        limit := offsetResult p.limit lv,
        sort := p.sort ++ (cleanSliceString (splitIfContains p.delimiter sv)).map sortTokenOf },
      none) := by
  have h1 : parseFields p [fv] (lookupVF p.validations "FIELDS") = ({ p with fields := cleanSliceString (splitIfContains p.delimiter fv) }, none) := by
    conv_lhs => arg 3; rw [hval]
    exact parseFields_single p fv
  have h2 : parseOffset ({ p with fields := cleanSliceString (splitIfContains p.delimiter fv) }) [ov] (lookupVF ({ p with fields := cleanSliceString (splitIfContains p.delimiter fv) } : QueryParser).validations "OFFSET") = ({ p with fields := cleanSliceString (splitIfContains p.delimiter fv), offset := offsetResult p.offset ov }, none) := by
    conv_lhs => arg 3; rw [hval]
    exact parseOffset_ok _ ov ho
  have h3 : parseLimit ({ p with fields := cleanSliceString (splitIfContains p.delimiter fv), offset := offsetResult p.offset ov }) [lv] (lookupVF ({ p with fields := cleanSliceString (splitIfContains p.delimiter fv), offset := offsetResult p.offset ov } : QueryParser).validations "LIMIT") = ({ p with fields := cleanSliceString (splitIfContains p.delimiter fv), offset := offsetResult p.offset ov, limit := offsetResult p.limit lv }, none) := by
    conv_lhs => arg 3; rw [hval]
    exact parseLimit_ok _ lv hl
  have h4 : parseSort ({ p with fields := cleanSliceString (splitIfContains p.delimiter fv), offset := offsetResult p.offset ov, limit := offsetResult p.limit lv }) [sv] (lookupVF ({ p with fields := cleanSliceString (splitIfContains p.delimiter fv), offset := offsetResult p.offset ov, limit := offsetResult p.limit lv } : QueryParser).validations "SORT") = ({ p with fields := cleanSliceString (splitIfContains p.delimiter fv), offset := offsetResult p.offset ov, limit := offsetResult p.limit lv, sort := p.sort ++ (cleanSliceString (splitIfContains p.delimiter sv)).map sortTokenOf }, none) := by
    conv_lhs => arg 3; rw [hval]
    exact parseSort_single _ sv
  unfold QueryParser.Parse
  conv_lhs => rw [hq]
  rw [parseLoop_cons_fields _ (by decide) h1, parseLoop_cons_offset _ (by decide) h2,
    parseLoop_cons_limit _ (by decide) h3, parseLoop_cons_sort _ (by decide) h4]
  rfl

/-- C10: `Parse()` does not reset previously accumulated state: on a fresh
parser over a query holding the four reserved keys, running `Parse()` a second
time on the resulting instance succeeds and appends every sort directive to
the sort list again — the sort list is the first run's list twice over — while
the fields list, offset and limit are overwritten with the same values rather
than duplicated. -/
theorem double_parse_accumulates_sort (fv ov lv sv : String)
    (ho : ov = "" ∨ (atoi ov).isSome = true) (hl : lv = "" ∨ (atoi lv).isSome = true) :
    (QueryParser.Parse (q4 fv ov lv sv)).2 = none ∧
    (QueryParser.Parse (QueryParser.Parse (q4 fv ov lv sv)).1).2 = none ∧
    (QueryParser.Parse (QueryParser.Parse (q4 fv ov lv sv)).1).1.sort =
      (QueryParser.Parse (q4 fv ov lv sv)).1.sort ++ (QueryParser.Parse (q4 fv ov lv sv)).1.sort ∧
    (QueryParser.Parse (QueryParser.Parse (q4 fv ov lv sv)).1).1.fields =
      (QueryParser.Parse (q4 fv ov lv sv)).1.fields ∧
    (QueryParser.Parse (QueryParser.Parse (q4 fv ov lv sv)).1).1.offset =
      (QueryParser.Parse (q4 fv ov lv sv)).1.offset ∧
    (QueryParser.Parse (QueryParser.Parse (q4 fv ov lv sv)).1).1.limit =
      (QueryParser.Parse (q4 fv ov lv sv)).1.limit := by
  have hA := parse_four (q4 fv ov lv sv) fv ov lv sv rfl rfl ho hl
  rw [hA]
  rw [parse_four _ fv ov lv sv (by rfl) (by rfl) ho hl]
  refine ⟨rfl, rfl, ?_, ?_, ?_, ?_⟩
  · show (((q4 fv ov lv sv).sort ++
        (cleanSliceString (splitIfContains (q4 fv ov lv sv).delimiter sv)).map sortTokenOf) ++
        (cleanSliceString (splitIfContains (q4 fv ov lv sv).delimiter sv)).map sortTokenOf) =
      ((q4 fv ov lv sv).sort ++
        (cleanSliceString (splitIfContains (q4 fv ov lv sv).delimiter sv)).map sortTokenOf) ++
      ((q4 fv ov lv sv).sort ++
        (cleanSliceString (splitIfContains (q4 fv ov lv sv).delimiter sv)).map sortTokenOf)
    rfl
  · rfl
  · exact offsetResult_idem _ ov
  · exact offsetResult_idem _ lv

/-- Witness for C10 at fields `a,b`, offset `2`, limit `3`, sort `-x,y`. -/
theorem double_parse_accumulates_sort_witness :
    (QueryParser.Parse (q4 "a,b" "2" "3" "-x,y")).2 = none ∧
    (QueryParser.Parse (QueryParser.Parse (q4 "a,b" "2" "3" "-x,y")).1).2 = none ∧
    (QueryParser.Parse (QueryParser.Parse (q4 "a,b" "2" "3" "-x,y")).1).1.sort =
      (QueryParser.Parse (q4 "a,b" "2" "3" "-x,y")).1.sort ++
        (QueryParser.Parse (q4 "a,b" "2" "3" "-x,y")).1.sort ∧
    (QueryParser.Parse (QueryParser.Parse (q4 "a,b" "2" "3" "-x,y")).1).1.fields =
      (QueryParser.Parse (q4 "a,b" "2" "3" "-x,y")).1.fields ∧
    (QueryParser.Parse (QueryParser.Parse (q4 "a,b" "2" "3" "-x,y")).1).1.offset =
      (QueryParser.Parse (q4 "a,b" "2" "3" "-x,y")).1.offset ∧
    (QueryParser.Parse (QueryParser.Parse (q4 "a,b" "2" "3" "-x,y")).1).1.limit =
      (QueryParser.Parse (q4 "a,b" "2" "3" "-x,y")).1.limit :=
  double_parse_accumulates_sort "a,b" "2" "3" "-x,y" (Or.inr (by decide)) (Or.inr (by decide))

end Rqp
